import Mathlib

set_option maxRecDepth 100000

/-!
Shallow embedding of the bookstore data-access layer of `src/db/db.py` and of
the FastAPI handlers of `src/main.py` that call it.  Relational state is a
record of tables (lists of rows, kept in row order); every SQL statement of the
source is translated into an explicit function on that state, and the
conditional construction of SQL text in `Database.list_books` and
`Database.update_book` is reproduced string for string, so that claims about
the generated query text can be settled.  The PostgreSQL DDL of the schema is
not part of the repository sources, so the table constraints (identity ids,
foreign keys, the composite key of `book_categories`) are modelled from the
specification, each at a definition marked `Modelled from the spec`.
-/

namespace Bookstore

deriving instance DecidableEq for Except

/-- Row of the `authors` table: `SELECT id, name, bio FROM authors`. -/
structure Author where
  id : Int
  name : String
  bio : Option String
deriving Repr, DecidableEq

/-- Row of the `categories` table: `SELECT id, name FROM categories`. -/
structure Category where
  id : Int
  name : String
deriving Repr, DecidableEq

/-- Row of the `books` table.  `price` is a numeric column never computed
with, carried as a rational; `published_date` is carried opaquely as the
string the HTTP layer parsed. -/
structure BookRow where
  id : Int
  title : String
  description : String
  price : Rat
  author_id : Int
  published_date : String
deriving Repr, DecidableEq

/-- The `details` payload `main.list_books` logs: the dict literal
`{"author_id": ..., "category_id": ..., "search": ..., "limit": ..., "offset": ...}`. -/
structure SearchDetails where
  author_id : Option Int
  category_id : Option Int
  search : Option String
  limit : Nat
  offset : Nat
deriving Repr, DecidableEq

/-- Row of the `logs` table, as `Database.log_action` inserts it. -/
structure LogEntry where
  user_id : Option Int
  action : String
  details : SearchDetails
deriving Repr, DecidableEq

/-- The relational store.  Tables are lists of rows in row order;
`next_book_id` is the identity sequence backing `books.id`. -/
structure DBState where
  authors : List Author
  categories : List Category
  books : List BookRow
  book_categories : List (Int × Int)
  logs : List LogEntry
  next_book_id : Int
deriving Repr, DecidableEq

/-- Storage-level failure of a single SQL statement. -/
inductive DbErr where
  | fk_violation
  | pk_violation
deriving Repr, DecidableEq

/-- Error outcomes of the `src/main.py` handlers: the explicit 404 absence
signal, the 400 pre-validation rejections, and a storage error escaping from
the db layer (an unhandled exception in the handler). -/
inductive ApiErr where
  | invalid_author_id
  | invalid_category_id (cid : Int)
  | not_found
  | db_error (e : DbErr)
deriving Repr, DecidableEq

/-- A bound query parameter, as handed to `conn.fetch`/`conn.execute` after
the query text. -/
inductive SqlParam where
  | int (i : Int)
  | str (s : String)
  | rat (q : Rat)
deriving Repr, DecidableEq

/-- Lexicographic comparison of char lists by code point; the model of the
collation behind `ORDER BY b.title`. -/
def charsLe : List Char → List Char → Bool
  | [], _ => true
  | _ :: _, [] => false
  | a :: as, b :: bs =>
      if a.toNat < b.toNat then true
      else if b.toNat < a.toNat then false
      else charsLe as bs

/-- String comparison used to model `ORDER BY b.title`. -/
def strLe (a b : String) : Bool := charsLe a.data b.data

/-- Splits on single spaces, accumulating the current token in reverse. -/
def tokens_aux : List Char → List Char → List String
  | [], acc => [String.mk acc.reverse]
  | c :: rest, acc =>
      if c = ' ' then String.mk acc.reverse :: tokens_aux rest []
      else tokens_aux rest (c :: acc)

/-- Tokens of a string, split on spaces. -/
def str_tokens (s : String) : List String := tokens_aux s.data []

/-- Modelled from the spec: the predicate
`to_tsvector(..., b.title || ... || b.description) @@ plainto_tsquery(..., $i)`
is evaluated inside PostgreSQL, outside `src/`.  Section 4.2 describes it as
plain-query tokenization with unordered token match over the concatenation of
title and description, so the model splits both sides on spaces and asks that
every non-empty token of the phrase occur among the tokens of the document. -/
def ts_match (doc phrase : String) : Bool :=
  (str_tokens phrase).all (fun t => t == "" || (str_tokens doc).contains t)

/-- `Database.get_author_by_id`: `SELECT id, name, bio FROM authors WHERE id=$1`
(`fetchrow` returns the first matching row or nothing). -/
def get_author_by_id (s : DBState) (author_id : Int) : Option Author :=
  s.authors.find? (fun a => a.id == author_id)

/-- `Database.get_category_by_id`: `SELECT id, name FROM categories WHERE id=$1`. -/
def get_category_by_id (s : DBState) (category_id : Int) : Option Category :=
  s.categories.find? (fun c => c.id == category_id)

/-- Modelled from the spec: the DDL of `book_categories` is not under `src/`.
Sections 3 and 6 give it the composite key `book_id+category_id` and make the
columns references into `books` and `categories` (section 4.4 relies on a bad
foreign key making exactly this insert fail).  So
`INSERT INTO book_categories(book_id, category_id) VALUES ($1, $2)` fails when
either referenced row is missing (foreign-key violation) or the pair is
already present (key violation), and otherwise appends the row. -/
def insert_book_category (s : DBState) (bid cid : Int) : Except DbErr DBState :=
  if (s.books.find? (fun b => b.id == bid)).isNone then .error .fk_violation
  else if (s.categories.find? (fun c => c.id == cid)).isNone then .error .fk_violation
  else if s.book_categories.contains (bid, cid) then .error .pk_violation
  else .ok { s with book_categories := s.book_categories ++ [(bid, cid)] }

/-- Modelled from the spec for the constraint part: `books.author_id` is a
non-null foreign key (section 3) and `books.id` an identity column, so
`INSERT INTO books(...) VALUES (...) RETURNING ...` fails on a missing author
and otherwise appends a row under the next identity value. -/
def insert_book (s : DBState) (title description : String) (price : Rat)
    (author_id : Int) (published_date : String) : Except DbErr (BookRow × DBState) :=
  if (s.authors.find? (fun a => a.id == author_id)).isNone then .error .fk_violation
  else
    let row : BookRow :=
      ⟨s.next_book_id, title, description, price, author_id, published_date⟩
    .ok (row, { s with books := s.books ++ [row], next_book_id := s.next_book_id + 1 })

/-- `DELETE FROM book_categories WHERE book_id=$1`. -/
def delete_book_categories_for (s : DBState) (bid : Int) : DBState :=
  { s with book_categories := s.book_categories.filter (fun p => !(p.1 == bid)) }

/-- Semantics of `async with conn.transaction()`: when the body succeeds its
final state commits; when any statement of the body fails, every statement
rolls back and the state observed afterwards is the state at entry. -/
def runTransaction (s : DBState) (body : DBState → Except DbErr (α × DBState)) :
    Except DbErr α × DBState :=
  match body s with
  | .ok (a, s') => (.ok a, s')
  | .error e => (.error e, s)

/-- The `for cid in category_ids` insert loop shared by `Database.create_book`
and `Database.update_book`, stopping at the first failing insert. -/
def attach_categories (s : DBState) (bid : Int) : List Int → Except DbErr DBState
  | [] => .ok s
  | cid :: rest => do
      let s' ← insert_book_category s bid cid
      attach_categories s' bid rest

/-- `Database.create_book`: inside one transaction, insert the book row, then
one association row per supplied category id; return the inserted row. -/
def create_book (s : DBState) (title description : String) (price : Rat)
    (author_id : Int) (published_date : String) (category_ids : List Int) :
    Except DbErr BookRow × DBState :=
  runTransaction s (fun s0 => do
    let (row, s1) ← insert_book s0 title description price author_id published_date
    let s2 ← attach_categories s1 row.id category_ids
    .ok (row, s2))

/-- The dynamic `up_fields` / `params` / `idx` construction at the top of
`Database.update_book`: one `field=$i` fragment and one bound parameter per
supplied field, placeholders numbered from 1 in field order. -/
def build_update_set (title description : Option String) (price : Option Rat)
    (author_id : Option Int) (published_date : Option String) :
    List String × List SqlParam × Nat :=
  let acc : List String × List SqlParam × Nat := ([], [], 1)
  let acc := match title with
    | some t => (acc.1 ++ ["title=$" ++ toString acc.2.2], acc.2.1 ++ [.str t], acc.2.2 + 1)
    | none => acc
  let acc := match description with
    | some d => (acc.1 ++ ["description=$" ++ toString acc.2.2], acc.2.1 ++ [.str d], acc.2.2 + 1)
    | none => acc
  let acc := match price with
    | some p => (acc.1 ++ ["price=$" ++ toString acc.2.2], acc.2.1 ++ [.rat p], acc.2.2 + 1)
    | none => acc
  let acc := match author_id with
    | some a => (acc.1 ++ ["author_id=$" ++ toString acc.2.2], acc.2.1 ++ [.int a], acc.2.2 + 1)
    | none => acc
  let acc := match published_date with
    | some pd => (acc.1 ++ ["published_date=$" ++ toString acc.2.2], acc.2.1 ++ [.str pd], acc.2.2 + 1)
    | none => acc
  acc

/-- The row update of `UPDATE books SET <set_part> WHERE id=$n`: every
supplied field overwrites the stored one on each row whose id matches. -/
def apply_set (title description : Option String) (price : Option Rat)
    (author_id : Option Int) (published_date : Option String) (b : BookRow) : BookRow :=
  { b with
    title := title.getD b.title
    description := description.getD b.description
    price := price.getD b.price
    author_id := author_id.getD b.author_id
    published_date := published_date.getD b.published_date }

/-- Executes `UPDATE books SET <set_part> WHERE id=$n`.  Modelled from the
spec for the constraint part: `books.author_id` is a non-null foreign key
(section 3), so the statement fails if some actually-updated row would end up
referencing a missing author; otherwise the matching rows are rewritten. -/
def exec_update_books (s : DBState) (bid : Int) (title description : Option String)
    (price : Option Rat) (author_id : Option Int) (published_date : Option String) :
    Except DbErr DBState :=
  if s.books.any (fun b => b.id == bid &&
      (s.authors.find? (fun a =>
        a.id == (apply_set title description price author_id published_date b).author_id)).isNone)
  then .error .fk_violation
  else .ok { s with books := s.books.map (fun b =>
    if b.id == bid then apply_set title description price author_id published_date b else b) }

/-- `Database.update_book`: inside one transaction, run the dynamic UPDATE
when at least one field was supplied (the source guards on the truthiness of
`set_part`, the join of `up_fields` with a separator; since every fragment is
non-empty that string is non-empty exactly when `up_fields` is non-empty),
then, when `category_ids` was supplied, delete all association rows of the
book and insert the new set; finally `SELECT * FROM books WHERE id=$1` and
return the row, or nothing when it does not exist. -/
def update_book (s : DBState) (book_id : Int) (title description : Option String)
    (price : Option Rat) (author_id : Option Int) (published_date : Option String)
    (category_ids : Option (List Int)) : Except DbErr (Option BookRow) × DBState :=
  runTransaction s (fun s0 => do
    let up_fields := (build_update_set title description price author_id published_date).1
    let s1 ← if up_fields = [] then Except.ok s0
      else exec_update_books s0 book_id title description price author_id published_date
    let s2 ← (match category_ids with
      | some cids => attach_categories (delete_book_categories_for s1 book_id) book_id cids
      | none => Except.ok s1)
    Except.ok (s2.books.find? (fun b => b.id == book_id), s2))

/-- `Database.delete_book`: executes `DELETE FROM books WHERE id=$1`; asyncpg
answers with the command tag `DELETE <n>` and the source reports
`result[-1] != '0'`.  Modelled from the spec for the association rows: whether
the storage cascades is the open question of section 9, and the model takes
the cascade option, so the delete also drops the association rows of the
deleted book and never fails. -/
def delete_book (s : DBState) (book_id : Int) : Bool × DBState :=
  let n := s.books.countP (fun b => b.id == book_id)
  let result := "DELETE " ++ toString n
  (result.back != '0',
   { s with
     books := s.books.filter (fun b => !(b.id == book_id)),
     book_categories := s.book_categories.filter (fun p => !(p.1 == book_id)) })

/-- The conditional query construction of `Database.list_books`, reproduced
string for string: the joined SQL text and the ordered bound-parameter list.
The search filter participates only when truthy (`if search:`), that is when
it is a non-empty string. -/
def build_list_books_query (author_id category_id : Option Int)
    (search : Option String) (limit offset : Nat) : String × List SqlParam :=
  let query : List String :=
    ["SELECT b.id, b.title, b.description, b.price, b.author_id, b.published_date, a.name as author_name FROM books b JOIN authors a ON b.author_id = a.id"]
  let wheres : List String := []
  let params : List SqlParam := []
  let idx : Nat := 1
  let (wheres, params, idx) := match author_id with
    | some a => (wheres ++ ["b.author_id=$" ++ toString idx], params ++ [SqlParam.int a], idx + 1)
    | none => (wheres, params, idx)
  let (query, wheres, params, idx) := match category_id with
    | some c => (query ++ ["JOIN book_categories bc ON b.id = bc.book_id"],
        wheres ++ ["bc.category_id=$" ++ toString idx], params ++ [SqlParam.int c], idx + 1)
    | none => (query, wheres, params, idx)
  let (wheres, params, _idx) := match search with
    | some t =>
        if t ≠ "" then
          (wheres ++ ["to_tsvector(\x27english\x27, b.title || \x27 \x27 || b.description) @@ plainto_tsquery(\x27english\x27, $" ++ toString idx ++ ")"],
           params ++ [SqlParam.str t], idx + 1)
        else (wheres, params, idx)
    | none => (wheres, params, idx)
  let query := if wheres ≠ [] then query ++ ["WHERE " ++ " AND ".intercalate wheres] else query
  let query := query ++ ["ORDER BY b.title LIMIT " ++ toString limit ++ " OFFSET " ++ toString offset]
  (" ".intercalate query, params)

/-- `FROM books b JOIN authors a ON b.author_id = a.id`, as the deterministic
nested-loop product in row order; each joined row carries the book row and the
selected `a.name`. -/
def books_join_authors (s : DBState) : List (BookRow × String) :=
  s.books.flatMap (fun b =>
    (s.authors.filter (fun a => a.id == b.author_id)).map (fun a => (b, a.name)))

/-- A row produced by the SELECT of `Database.list_books`: the book columns
plus `a.name as author_name`. -/
structure RawBookRow where
  id : Int
  title : String
  description : String
  price : Rat
  author_id : Int
  published_date : String
  author_name : String
deriving Repr, DecidableEq

/-- Projection of a joined row onto the selected columns. -/
def mkRaw (r : BookRow × String) : RawBookRow :=
  ⟨r.1.id, r.1.title, r.1.description, r.1.price, r.1.author_id, r.1.published_date, r.2⟩

/-- Title order on selected rows, the `ORDER BY b.title` key. -/
def titleLe (r r' : RawBookRow) : Prop := strLe r.title r'.title = true

instance instDecTitleLe : DecidableRel titleLe := fun r r' =>
  inferInstanceAs (Decidable (strLe r.title r'.title = true))

/-- The base SELECT of `Database.list_books`: the projection of the join of
books with authors onto the selected columns. -/
def lb_base (s : DBState) : List RawBookRow := (books_join_authors s).map mkRaw

/-- The optional `JOIN book_categories bc ON b.id = bc.book_id` of
`Database.list_books`: present exactly when a category filter is, pairing
every base row with each of its association rows; without the filter each base
row stands alone. -/
def lb_joined (s : DBState) (category_id : Option Int) :
    List (RawBookRow × Option (Int × Int)) :=
  match category_id with
  | some _ => (lb_base s).flatMap (fun r =>
      (s.book_categories.filter (fun p => p.1 == r.id)).map (fun p => (r, some p)))
  | none => (lb_base s).map (fun r => (r, none))

/-- The `WHERE` conjunction of `Database.list_books` over a joined row: the
author predicate, the `bc.category_id=$i` predicate against the joined
association row, and the full-text predicate, each present exactly when its
filter is (the search filter only when truthy, mirroring `if search:`). -/
def lb_where (author_id category_id : Option Int) (search : Option String)
    (rp : RawBookRow × Option (Int × Int)) : Bool :=
  (match author_id with | some a => rp.1.author_id == a | none => true) &&
  (match category_id, rp.2 with
    | some c, some p => p.2 == c
    | some _, none => false
    | none, _ => true) &&
  (match search with
    | some t => if t ≠ "" then ts_match (rp.1.title ++ " " ++ rp.1.description) t else true
    | none => true)

/-- Row semantics of the query built by `build_list_books_query`, clause by
clause over the deterministic table model: the base join of books with
authors, the optional association join, the `WHERE` conjunction over the
joined rows, the projection onto the selected columns, `ORDER BY b.title` as
a stable sort by title, and `LIMIT/OFFSET` truncating after the sort. -/
def run_list_books_query (s : DBState) (author_id category_id : Option Int)
    (search : Option String) (limit offset : Nat) : List RawBookRow :=
  let rows := ((lb_joined s category_id).filter
    (lb_where author_id category_id search)).map (fun rp => rp.1)
  ((rows.insertionSort titleLe).drop offset).take limit

/-- A row of the batched category query of `Database.list_books`:
`SELECT bc.book_id, c.id, c.name FROM book_categories bc JOIN categories c ON bc.category_id = c.id WHERE bc.book_id = ANY($1)`. -/
structure CatRow where
  book_id : Int
  id : Int
  name : String
deriving Repr, DecidableEq

/-- Category entry as embedded in a returned book. -/
structure CatLite where
  id : Int
  name : String
deriving Repr, DecidableEq

/-- Row semantics of the batched category query, in the deterministic
nested-loop row order of its FROM clause. -/
def run_cats_query (s : DBState) (book_ids : List Int) : List CatRow :=
  (s.book_categories.flatMap (fun p =>
    (s.categories.filter (fun c => c.id == p.2)).map (fun c => CatRow.mk p.1 c.id c.name))).filter
    (fun cr => book_ids.contains cr.book_id)

/-- One step of the dictionary-building loop of `Database.list_books`: the
dict is represented extensionally as a function from book id to the list
accumulated so far (a missing key reads as `[]`, as `d.get(book_id, [])`
does), and each `cats` row appends one entry under its `book_id` key. -/
def dict_insert (d : Int → List CatLite) (cr : CatRow) : Int → List CatLite :=
  fun b => if b == cr.book_id then d b ++ [CatLite.mk cr.id cr.name] else d b

/-- The dictionary `d` after the whole loop over the `cats` rows. -/
def build_cat_dict (cats : List CatRow) : Int → List CatLite :=
  cats.foldl dict_insert (fun _ => [])

/-- A fully assembled book as the endpoints return it. -/
structure BookOut where
  id : Int
  title : String
  description : String
  price : Rat
  author_id : Int
  published_date : String
  author_name : String
  categories : List CatLite
deriving Repr, DecidableEq

/-- `Database.list_books`: run the built query, and when it returned at least
one row, issue the one batched category query for exactly the returned ids,
build the dictionary, and merge a categories list into every row.  The second
component records whether the batched category query was issued (the branch
`if book_ids:`); with zero rows the initial empty `all_cats` is returned and
no category query runs. -/
def list_books (s : DBState) (author_id category_id : Option Int)
    (search : Option String) (limit offset : Nat) : List BookOut × Bool :=
  let rows := run_list_books_query s author_id category_id search limit offset
  let book_ids := rows.map (fun r => r.id)
  if book_ids ≠ [] then
    let cats := run_cats_query s book_ids
    let d := build_cat_dict cats
    (rows.map (fun r =>
      ⟨r.id, r.title, r.description, r.price, r.author_id, r.published_date, r.author_name, d r.id⟩),
     true)
  else ([], false)

/-- `Database.get_book_by_id`: the single-book SELECT joined with the author
(`fetchrow`, first matching row), then, when it matched, the per-book category
query `SELECT c.id, c.name FROM categories c JOIN book_categories bc ON c.id = bc.category_id WHERE bc.book_id = $1`
in the nested-loop row order of its FROM clause. -/
def get_book_by_id (s : DBState) (book_id : Int) : Option BookOut :=
  match (books_join_authors s).find? (fun r => r.1.id == book_id) with
  | none => none
  | some (b, an) =>
      let cat_rows := s.categories.flatMap (fun c =>
        (s.book_categories.filter (fun p => c.id == p.2 && p.1 == book_id)).map
          (fun _ => CatLite.mk c.id c.name))
      some ⟨b.id, b.title, b.description, b.price, b.author_id, b.published_date, an, cat_rows⟩

/-- `Database.log_action`: `INSERT INTO logs(user_id, action, details)`. -/
def log_action (s : DBState) (user_id : Option Int) (action : String)
    (details : SearchDetails) : DBState :=
  { s with logs := s.logs ++ [LogEntry.mk user_id action details] }

/-- The request body of `POST /books/`. -/
structure BookIn where
  title : String
  description : String
  price : Rat
  author_id : Int
  published_date : String
  category_ids : List Int
deriving Repr, DecidableEq

/-- The request body of `PUT /books/{book_id}`; every field defaults to
absent. -/
structure BookUpdateIn where
  title : Option String
  description : Option String
  price : Option Rat
  author_id : Option Int
  published_date : Option String
  category_ids : Option (List Int)
deriving Repr, DecidableEq

/-- The `for cid in ...` validation loop of the handlers: the first supplied
category id that does not resolve, if any (the loop raises at the first
failure). -/
def validate_category_ids (s : DBState) : List Int → Option Int
  | [] => none
  | cid :: rest =>
      if (get_category_by_id s cid).isNone then some cid
      else validate_category_ids s rest

/-- Handler `create_book` of `src/main.py`: reject a missing author id, then
the first missing category id, before any write; then run
`Database.create_book` and re-read the full book via
`Database.get_book_by_id`. -/
def main_create_book (s : DBState) (book : BookIn) :
    Except ApiErr (Option BookOut) × DBState :=
  if (get_author_by_id s book.author_id).isNone then (.error .invalid_author_id, s)
  else
    match validate_category_ids s book.category_ids with
    | some cid => (.error (.invalid_category_id cid), s)
    | none =>
        match create_book s book.title book.description book.price book.author_id
            book.published_date book.category_ids with
        | (.ok row, s') => (.ok (get_book_by_id s' row.id), s')
        | (.error e, s') => (.error (.db_error e), s')

/-- Handler `update_book` of `src/main.py`.  The guards
`if book_update.author_id` and `if book_update.category_ids` are Python
truthiness tests: an absent value, the integer 0 and the empty list all skip
the corresponding validation.  An absent result from `Database.update_book`
becomes the 404 absence signal; a storage error escapes the handler. -/
def main_update_book (s : DBState) (book_id : Int) (u : BookUpdateIn) :
    Except ApiErr (Option BookOut) × DBState :=
  let author_truthy := match u.author_id with | some a => a != 0 | none => false
  if author_truthy && (get_author_by_id s (u.author_id.getD 0)).isNone then
    (.error .invalid_author_id, s)
  else
    let cat_invalid := match u.category_ids with
      | some cids => if cids ≠ [] then validate_category_ids s cids else none
      | none => none
    match cat_invalid with
    | some cid => (.error (.invalid_category_id cid), s)
    | none =>
        match update_book s book_id u.title u.description u.price u.author_id
            u.published_date u.category_ids with
        | (.ok none, s') => (.error .not_found, s')
        | (.ok (some _), s') => (.ok (get_book_by_id s' book_id), s')
        | (.error e, s') => (.error (.db_error e), s')

/-- Handler `delete_book` of `src/main.py`: a false report from
`Database.delete_book` becomes the 404 absence signal. -/
def main_delete_book (s : DBState) (book_id : Int) : Except ApiErr Bool × DBState :=
  match delete_book s book_id with
  | (true, s') => (.ok true, s')
  | (false, s') => (.error .not_found, s')

/-- Handler `list_books` of `src/main.py`: the response list is computed
first; `db.log_action` is then scheduled as a background task, which runs only
after the response is determined.  `log_ok` is the outcome of that deferred
write: on success one log row is appended, on failure FastAPI absorbs the
error outside the request path and the log table is simply left unchanged. -/
def main_list_books (s : DBState) (author_id category_id : Option Int)
    (search : Option String) (limit offset : Nat) (user_id : Option Int)
    (log_ok : Bool) : List BookOut × DBState :=
  let books := (list_books s author_id category_id search limit offset).1
  let s' :=
    if log_ok then
      log_action s user_id "search_books"
        (SearchDetails.mk author_id category_id search limit offset)
    else s
  (books, s')

/-- Referential integrity of a store, as section 3 states it: ids of authors,
of categories and of books are unique (identity columns), every book
references an existing author (non-null foreign key), the association table
has no duplicate pair (its composite key) and both of its columns resolve
(its foreign keys). -/
structure Integrity (s : DBState) : Prop where
  authors_nodup : (s.authors.map (fun a => a.id)).Nodup
  categories_nodup : (s.categories.map (fun c => c.id)).Nodup
  books_nodup : (s.books.map (fun b => b.id)).Nodup
  books_author_fk : ∀ b ∈ s.books, ∃ a ∈ s.authors, a.id = b.author_id
  bc_nodup : s.book_categories.Nodup
  bc_book_fk : ∀ p ∈ s.book_categories, ∃ b ∈ s.books, b.id = p.1
  bc_category_fk : ∀ p ∈ s.book_categories, ∃ c ∈ s.categories, c.id = p.2

/-- Name of the unique author a book references, read back by `find?`; the
empty string stands for the impossible missing case. -/
def author_name (s : DBState) (b : BookRow) : String :=
  ((s.authors.find? (fun a => a.id == b.author_id)).map (fun a => a.name)).getD ""

/-- The conjunction of all active filter predicates over a stored book row,
following the words of the spec: author match when an author filter is
present, membership of the association pair when a category filter is
present, and the full-text match when a non-empty search phrase is present;
all combined with logical AND. -/
def list_filter_pred (s : DBState) (author_id category_id : Option Int)
    (search : Option String) (b : BookRow) : Bool :=
  (match author_id with | some a => b.author_id == a | none => true) &&
  (match category_id with
    | some c => s.book_categories.contains (b.id, c)
    | none => true) &&
  (match search with
    | some t => if t ≠ "" then ts_match (b.title ++ " " ++ b.description) t else true
    | none => true)

/-- A stored book row enriched with the name of its author. -/
def enrich (s : DBState) (b : BookRow) : RawBookRow :=
  RawBookRow.mk b.id b.title b.description b.price b.author_id b.published_date
    (author_name s b)

/-- Statement of the listing claim, following the words of the spec: exactly
the books satisfying the conjunction of all active filter predicates, each
enriched with its author name, ordered by title ascending, and limit and
offset applied after that ordering. -/
def spec_list_books (s : DBState) (author_id category_id : Option Int)
    (search : Option String) (limit offset : Nat) : List RawBookRow :=
  ((((s.books.filter (list_filter_pred s author_id category_id search)).map
    (enrich s)).insertionSort titleLe).drop offset).take limit

/-! Concrete stores used to evaluate the development on closed inputs. -/

/-- Book row 1 of the sample store: title `zeta`, author 1, price 10. -/
def bW1 : BookRow := ⟨1, "zeta", "d1", 10, 1, "2020-01-01"⟩

/-- Book row 2 of the sample store: title `alpha`, author 2, price 20. -/
def bW2 : BookRow := ⟨2, "alpha", "d2", 20, 2, "2021-01-01"⟩

/-- A small sample store satisfying referential integrity: two authors, two
categories, two books, book 1 associated with both categories. -/
def sW : DBState :=
  { authors := [⟨1, "ann", none⟩, ⟨2, "bob", none⟩],
    categories := [⟨1, "sci"⟩, ⟨2, "lit"⟩],
    books := [bW1, bW2],
    book_categories := [(1, 1), (1, 2)],
    logs := [],
    next_book_id := 3 }

/-- A sample store whose `books` table is empty (one author and one category
remain), used to evaluate the zero-row listing path. -/
def sNoBooks : DBState :=
  { authors := [⟨1, "ann", none⟩],
    categories := [⟨1, "sci"⟩],
    books := [],
    book_categories := [],
    logs := [],
    next_book_id := 1 }

/-! Helper lemmas. -/

theorem charsLe_cons_iff (a b : Char) (as bs : List Char) :
    charsLe (a :: as) (b :: bs) = true ↔
      a.toNat < b.toNat ∨ (a.toNat = b.toNat ∧ charsLe as bs = true) := by
  simp only [charsLe]
  by_cases h1 : a.toNat < b.toNat
  · simp [h1]
  · by_cases h2 : b.toNat < a.toNat
    · simp only [if_neg h1, if_pos h2]
      constructor
      · intro h; cases h
      · intro h
        rcases h with h | ⟨h, _⟩ <;> omega
    · have h3 : a.toNat = b.toNat := by omega
      simp [h1, h2, h3]

theorem charsLe_total : ∀ a b : List Char, charsLe a b = true ∨ charsLe b a = true := by
  intro a
  induction a with
  | nil => intro b; left; rfl
  | cons x xs ih =>
      intro b
      cases b with
      | nil => right; rfl
      | cons y ys =>
          rw [charsLe_cons_iff, charsLe_cons_iff]
          rcases Nat.lt_trichotomy x.toNat y.toNat with h | h | h
          · left; left; exact h
          · rcases ih ys with h4 | h4
            · left; right; exact ⟨h, h4⟩
            · right; right; exact ⟨h.symm, h4⟩
          · right; left; exact h

theorem charsLe_trans : ∀ a b c : List Char,
    charsLe a b = true → charsLe b c = true → charsLe a c = true := by
  intro a
  induction a with
  | nil => intro b c _ _; rfl
  | cons x xs ih =>
      intro b c hab hbc
      cases b with
      | nil => simp [charsLe] at hab
      | cons y ys =>
          cases c with
          | nil => simp [charsLe] at hbc
          | cons z zs =>
              rw [charsLe_cons_iff] at hab hbc ⊢
              rcases hab with h | ⟨he, hr⟩
              · rcases hbc with h' | ⟨he', _⟩
                · left; omega
                · left; omega
              · rcases hbc with h' | ⟨he', hr'⟩
                · left; omega
                · right; exact ⟨by omega, ih ys zs hr hr'⟩

instance instTransTitleLe : IsTrans RawBookRow titleLe :=
  ⟨fun _ _ _ h1 h2 => charsLe_trans _ _ _ h1 h2⟩

instance instTotalTitleLe : IsTotal RawBookRow titleLe :=
  ⟨fun a b => charsLe_total a.title.data b.title.data⟩

theorem flatMap_eq_map_of_singleton {α β : Type} (l : List α) (f : α → List β) (g : α → β)
    (h : ∀ a ∈ l, f a = [g a]) : l.flatMap f = l.map g := by
  induction l with
  | nil => rfl
  | cons x xs ih =>
      simp only [List.flatMap_cons, List.map_cons]
      rw [h x (List.mem_cons_self x xs), ih (fun a ha => h a (List.mem_cons_of_mem x ha))]
      rfl

theorem flatMap_if_singleton {α : Type} (l : List α) (p : α → Bool) :
    l.flatMap (fun x => if p x then [x] else []) = l.filter p := by
  induction l with
  | nil => rfl
  | cons x xs ih =>
      simp only [List.flatMap_cons, List.filter_cons]
      by_cases h : p x = true
      · simp [h, ih]
      · simp [h, ih]

theorem filter_key_eq_nil {α : Type} (key : α → Int) (l : List α) (x : Int)
    (h : x ∉ l.map key) : l.filter (fun y => key y == x) = [] := by
  rw [List.filter_eq_nil_iff]
  intro a ha hk
  exact h (List.mem_map.mpr ⟨a, ha, by simpa using hk⟩)

theorem filter_key_eq_singleton {α : Type} (key : α → Int) (l : List α)
    (hnd : (l.map key).Nodup) (a : α) (ha : a ∈ l) (x : Int) (hx : key a = x) :
    l.filter (fun y => key y == x) = [a] := by
  induction l with
  | nil => cases ha
  | cons h t ih =>
      simp only [List.map_cons, List.nodup_cons] at hnd
      rcases List.mem_cons.mp ha with rfl | hmem
      · simp only [List.filter_cons, hx, beq_self_eq_true, if_pos]
        rw [filter_key_eq_nil key t x (hx ▸ hnd.1)]
      · have hne : ¬ key h = x := by
          intro he
          exact hnd.1 (List.mem_map.mpr ⟨a, hmem, by rw [hx, he]⟩)
        simp only [List.filter_cons]
        rw [if_neg (by simpa using hne)]
        exact ih hnd.2 hmem

theorem find?_key_eq_some {α : Type} (key : α → Int) (l : List α)
    (hnd : (l.map key).Nodup) (a : α) (ha : a ∈ l) (x : Int) (hx : key a = x) :
    l.find? (fun y => key y == x) = some a := by
  induction l with
  | nil => cases ha
  | cons h t ih =>
      simp only [List.map_cons, List.nodup_cons] at hnd
      rcases List.mem_cons.mp ha with rfl | hmem
      · exact List.find?_cons_of_pos _ (by simpa using hx)
      · have hne : ¬ key h = x := by
          intro he
          exact hnd.1 (List.mem_map.mpr ⟨a, hmem, by rw [hx, he]⟩)
        rw [List.find?_cons_of_neg _ (by simpa using hne)]
        exact ih hnd.2 hmem

theorem filter_beq_eq_singleton {α : Type} [BEq α] [LawfulBEq α] (l : List α) (hnd : l.Nodup)
    (x : α) (hx : x ∈ l) : l.filter (fun y => y == x) = [x] := by
  induction l with
  | nil => cases hx
  | cons h t ih =>
      simp only [List.nodup_cons] at hnd
      rcases List.mem_cons.mp hx with rfl | hmem
      · simp only [List.filter_cons, beq_self_eq_true, if_pos]
        rw [List.filter_eq_nil_iff.mpr]
        intro a ha hk
        exact hnd.1 (by simpa using (beq_iff_eq.mp hk) ▸ ha)
      · have hne : ¬ h = x := fun he => hnd.1 (he ▸ hmem)
        simp only [List.filter_cons]
        rw [if_neg (by simpa using hne)]
        exact ih hnd.2 hmem

theorem filter_beq_eq_nil {α : Type} [BEq α] [LawfulBEq α] (l : List α) (x : α) (hx : x ∉ l) :
    l.filter (fun y => y == x) = [] := by
  rw [List.filter_eq_nil_iff]
  intro a ha hk
  exact hx ((beq_iff_eq.mp hk) ▸ ha)

theorem build_cat_dict_aux (cats : List CatRow) :
    ∀ (d : Int → List CatLite) (b : Int),
      cats.foldl dict_insert d b =
        d b ++ (cats.filter (fun cr => cr.book_id == b)).map (fun cr => CatLite.mk cr.id cr.name) := by
  induction cats with
  | nil => intro d b; simp
  | cons cr rest ih =>
      intro d b
      simp only [List.foldl_cons, List.filter_cons]
      rw [ih]
      by_cases h : cr.book_id = b
      · subst h
        simp [dict_insert]
      · have h1 : (cr.book_id == b) = false := by simpa using h
        have h2 : (b == cr.book_id) = false := by simpa using fun he => h he.symm
        simp [dict_insert, h1, h2]

theorem build_cat_dict_eq (cats : List CatRow) (b : Int) :
    build_cat_dict cats b =
      (cats.filter (fun cr => cr.book_id == b)).map (fun cr => CatLite.mk cr.id cr.name) := by
  unfold build_cat_dict
  rw [build_cat_dict_aux]
  rfl

theorem runTransaction_error {α : Type} (s : DBState)
    (body : DBState → Except DbErr (α × DBState)) (e : DbErr)
    (h : (runTransaction s body).1 = .error e) : (runTransaction s body).2 = s := by
  unfold runTransaction at h ⊢
  cases hb : body s with
  | ok v =>
      obtain ⟨a, s'⟩ := v
      rw [hb] at h
      simp at h
  | error e' => rfl

theorem books_join_authors_eq (s : DBState) (hI : Integrity s) :
    books_join_authors s = s.books.map (fun b => (b, author_name s b)) := by
  unfold books_join_authors
  apply flatMap_eq_map_of_singleton
  intro b hb
  obtain ⟨a, ha, haid⟩ := hI.books_author_fk b hb
  rw [filter_key_eq_singleton (fun y => y.id) s.authors hI.authors_nodup a ha b.author_id haid]
  have : author_name s b = a.name := by
    unfold author_name
    rw [find?_key_eq_some (fun y => y.id) s.authors hI.authors_nodup a ha b.author_id haid]
    rfl
  rw [this]
  rfl

theorem inner_cat_eq (bc : List (Int × Int)) (hnd : bc.Nodup) (b1 b3 : Bool)
    (bid cv : Int) (r : RawBookRow) :
    ((bc.filter (fun p => p.1 == bid)).filter (fun p => b1 && (p.2 == cv) && b3)).map
        (fun _ => r) =
      if b1 && bc.contains (bid, cv) && b3 then [r] else [] := by
  cases b1 with
  | false => simp
  | true =>
      cases b3 with
      | false => simp
      | true =>
          simp only [Bool.true_and, Bool.and_true]
          rw [List.filter_filter]
          rw [List.filter_congr (q := fun p => p == (bid, cv))
            (fun p _ => by cases p with | mk x y => rw [Bool.and_comm]; rfl)]
          by_cases hmem : (bid, cv) ∈ bc
          · rw [filter_beq_eq_singleton bc hnd _ hmem]
            have hc : bc.contains (bid, cv) = true := List.elem_iff.mpr hmem
            rw [hc]
            rfl
          · rw [filter_beq_eq_nil bc _ hmem]
            have hc : bc.contains (bid, cv) = false := by
              rcases Bool.eq_false_or_eq_true (bc.contains (bid, cv)) with h | h
              · exact absurd (List.elem_iff.mp h) hmem
              · exact h
            rw [hc]
            rfl

theorem lb_base_eq (s : DBState) (hI : Integrity s) :
    lb_base s = s.books.map (enrich s) := by
  unfold lb_base
  rw [books_join_authors_eq s hI, List.map_map]
  rfl

theorem lb_rows_eq (s : DBState) (hI : Integrity s) (a c : Option Int) (q : Option String) :
    ((lb_joined s c).filter (lb_where a c q)).map (fun rp => rp.1) =
      (s.books.filter (list_filter_pred s a c q)).map (enrich s) := by
  cases c with
  | none =>
      simp only [lb_joined]
      rw [List.filter_map, List.map_map]
      have h1 : ((fun rp : RawBookRow × Option (Int × Int) => rp.1) ∘
          (fun r : RawBookRow => (r, (none : Option (Int × Int))))) = fun r => r := rfl
      rw [h1, List.map_id']
      rw [lb_base_eq s hI, List.filter_map]
      exact congrArg _ (List.filter_congr (fun b _ => rfl))
  | some cv =>
      simp only [lb_joined]
      rw [List.filter_flatMap, List.map_flatMap]
      have hinner : ∀ r ∈ lb_base s,
          (List.map (fun rp : RawBookRow × Option (Int × Int) => rp.1)
            (((s.book_categories.filter (fun p => p.1 == r.id)).map
              (fun p => (r, some p))).filter (lb_where a (some cv) q))) =
          if (match a with | some av => r.author_id == av | none => true) &&
              s.book_categories.contains (r.id, cv) &&
              (match q with
                | some t => if t ≠ "" then ts_match (r.title ++ " " ++ r.description) t else true
                | none => true) then [r] else [] := by
        intro r _
        rw [List.filter_map, List.map_map]
        have hf : ((fun rp : RawBookRow × Option (Int × Int) => rp.1) ∘
            (fun p : Int × Int => (r, some p))) = (fun _ : Int × Int => r) := rfl
        have hp : (lb_where a (some cv) q ∘ (fun p : Int × Int => (r, some p))) =
            (fun p : Int × Int =>
              (match a with | some av => r.author_id == av | none => true) &&
              (p.2 == cv) &&
              (match q with
                | some t => if t ≠ "" then ts_match (r.title ++ " " ++ r.description) t else true
                | none => true)) := rfl
        rw [hf, hp]
        exact inner_cat_eq s.book_categories hI.bc_nodup _ _ r.id cv r
      rw [List.flatMap_congr hinner, flatMap_if_singleton]
      rw [lb_base_eq s hI, List.filter_map]
      exact congrArg _ (List.filter_congr (fun b _ => rfl))

theorem run_list_books_query_eq (s : DBState) (hI : Integrity s)
    (a c : Option Int) (q : Option String) (l o : Nat) :
    run_list_books_query s a c q l o = spec_list_books s a c q l o := by
  unfold run_list_books_query spec_list_books
  rw [lb_rows_eq s hI a c q]

theorem build_update_set_nil_iff (t d : Option String) (p : Option Rat) (a : Option Int)
    (pd : Option String) :
    (build_update_set t d p a pd).1 = [] ↔
      t = none ∧ d = none ∧ p = none ∧ a = none ∧ pd = none := by
  constructor
  · intro h
    cases t <;> cases d <;> cases p <;> cases a <;> cases pd <;>
      simp_all [build_update_set]
  · rintro ⟨rfl, rfl, rfl, rfl, rfl⟩
    rfl

theorem mem_books_eq (s : DBState) (hI : Integrity s) (b x : BookRow)
    (hb : b ∈ s.books) (hx : x ∈ s.books) (hid : x.id = b.id) : x = b :=
  List.inj_on_of_nodup_map hI.books_nodup hx hb hid

theorem find?_congr_fun {α : Type} (p q : α → Bool) (l : List α) (h : ∀ x, p x = q x) :
    l.find? p = l.find? q := by
  rw [funext h]

theorem exec_update_books_ok (s : DBState) (hI : Integrity s) (bid : Int) (b : BookRow)
    (hb : b ∈ s.books) (hbid : b.id = bid)
    (t d : Option String) (p : Option Rat) (a : Option Int) (pd : Option String)
    (hauth : ∀ av, a = some av → ∃ x ∈ s.authors, x.id = av) :
    exec_update_books s bid t d p a pd =
      .ok { s with books := s.books.map (fun x =>
        if x.id == bid then apply_set t d p a pd x else x) } := by
  unfold exec_update_books
  rw [if_neg]
  intro hany
  rw [List.any_eq_true] at hany
  obtain ⟨x, hx, hcond⟩ := hany
  rw [Bool.and_eq_true] at hcond
  obtain ⟨hxid, hnone⟩ := hcond
  have hxb : x = b := mem_books_eq s hI b x hb hx (by rw [beq_iff_eq] at hxid; rw [hxid, ← hbid])
  subst hxb
  have hsome : (s.authors.find? (fun a' =>
      a'.id == (apply_set t d p a pd x).author_id)).isSome = true := by
    apply List.find?_isSome.mpr
    cases ha : a with
    | some av =>
        obtain ⟨y, hy, hyid⟩ := hauth av ha
        refine ⟨y, hy, ?_⟩
        rw [beq_iff_eq]
        exact hyid
    | none =>
        obtain ⟨y, hy, hyid⟩ := hI.books_author_fk x hx
        refine ⟨y, hy, ?_⟩
        rw [beq_iff_eq]
        exact hyid
  rw [Option.isNone_iff_eq_none] at hnone
  rw [hnone] at hsome
  exact absurd hsome (by decide)

theorem update_book_all_none (s : DBState) (bid : Int) :
    update_book s bid none none none none none none =
      (.ok (s.books.find? (fun x => x.id == bid)), s) := rfl

theorem update_book_clear_cats (s : DBState) (bid : Int) :
    update_book s bid none none none none none (some []) =
      (.ok (s.books.find? (fun x => x.id == bid)),
       { s with book_categories := s.book_categories.filter (fun p => !(p.1 == bid)) }) := rfl

theorem find?_books_eq (s : DBState) (hI : Integrity s) (bid : Int) (b : BookRow)
    (hb : b ∈ s.books) (hbid : b.id = bid) :
    s.books.find? (fun x => x.id == bid) = some b :=
  find?_key_eq_some (fun y => y.id) s.books hI.books_nodup b hb bid hbid

theorem update_book_none_eq (s : DBState) (hI : Integrity s) (bid : Int) (b : BookRow)
    (hb : b ∈ s.books) (hbid : b.id = bid)
    (t d : Option String) (p : Option Rat) (a : Option Int) (pd : Option String)
    (hauth : ∀ av, a = some av → ∃ x ∈ s.authors, x.id = av) :
    update_book s bid t d p a pd none =
      (.ok (some (apply_set t d p a pd b)),
       { s with books := s.books.map (fun x =>
         if x.id == bid then apply_set t d p a pd x else x) }) := by
  have hpf : (fun x : BookRow =>
      ((if x.id == bid then apply_set t d p a pd x else x).id == bid)) =
      (fun x : BookRow => x.id == bid) := by
    funext x
    by_cases h : (x.id == bid) = true
    · rw [if_pos h]
      rfl
    · rw [if_neg h]
  have hfind : (s.books.map (fun x =>
      if x.id == bid then apply_set t d p a pd x else x)).find? (fun x => x.id == bid) =
      some (apply_set t d p a pd b) := by
    rw [List.find?_map]
    have : ((fun x : BookRow => x.id == bid) ∘ (fun x : BookRow =>
        if x.id == bid then apply_set t d p a pd x else x)) =
        (fun x : BookRow => x.id == bid) := hpf
    rw [this, find?_books_eq s hI bid b hb hbid]
    have hbt : (b.id == bid) = true := by rw [beq_iff_eq]; exact hbid
    simp [hbt]
    intro h
    exact absurd hbid h
  by_cases hup : (build_update_set t d p a pd).1 = []
  · obtain ⟨rfl, rfl, rfl, rfl, rfl⟩ := (build_update_set_nil_iff t d p a pd).mp hup
    rw [update_book_all_none]
    have hmap : s.books.map (fun x =>
        if x.id == bid then apply_set none none none none none x else x) = s.books := by
      rw [List.map_congr_left (g := fun x => x) (fun x _ => ?_), List.map_id']
      have : apply_set none none none none none x = x := rfl
      rw [this, ite_self]
    rw [find?_books_eq s hI bid b hb hbid]
    have happ : apply_set none none none none none b = b := rfl
    rw [happ, hmap]
  · have hexec := exec_update_books_ok s hI bid b hb hbid t d p a pd hauth
    unfold update_book runTransaction
    simp only [bind, Except.bind]
    rw [if_neg hup, hexec]
    dsimp only
    rw [hfind]

theorem get_book_by_id_eq (s : DBState) (hI : Integrity s) (bid : Int) (b : BookRow)
    (hb : b ∈ s.books) (hbid : b.id = bid) :
    get_book_by_id s bid = some ⟨b.id, b.title, b.description, b.price, b.author_id,
      b.published_date, author_name s b,
      s.categories.flatMap (fun c =>
        (s.book_categories.filter (fun p => c.id == p.2 && p.1 == bid)).map
          (fun _ => CatLite.mk c.id c.name))⟩ := by
  unfold get_book_by_id
  have hfind : (books_join_authors s).find? (fun r => r.1.id == bid) =
      some (b, author_name s b) := by
    rw [books_join_authors_eq s hI, List.find?_map]
    have hcomp : ((fun r : BookRow × String => r.1.id == bid) ∘
        (fun b => (b, author_name s b))) = (fun x : BookRow => x.id == bid) := rfl
    rw [hcomp, find?_books_eq s hI bid b hb hbid]
    rfl
  rw [hfind]

theorem book_cats_ne_nil (s : DBState) (hI : Integrity s) (bid : Int)
    (hc : ∃ cp ∈ s.book_categories, cp.1 = bid) :
    s.categories.flatMap (fun c =>
      (s.book_categories.filter (fun p => c.id == p.2 && p.1 == bid)).map
        (fun _ => CatLite.mk c.id c.name)) ≠ [] := by
  obtain ⟨cp, hcp, hcpb⟩ := hc
  obtain ⟨c, hcmem, hcid⟩ := hI.bc_category_fk cp hcp
  apply List.ne_nil_of_mem (a := CatLite.mk c.id c.name)
  rw [List.mem_flatMap]
  refine ⟨c, hcmem, List.mem_map.mpr ⟨cp, List.mem_filter.mpr ⟨hcp, ?_⟩, rfl⟩⟩
  rw [Bool.and_eq_true, beq_iff_eq, beq_iff_eq]
  exact ⟨hcid, hcpb⟩

theorem book_cats_nil_after_clear (s : DBState) (bid : Int) :
    s.categories.flatMap (fun c =>
      ((s.book_categories.filter (fun p => !(p.1 == bid))).filter
        (fun p => c.id == p.2 && p.1 == bid)).map
        (fun _ => CatLite.mk c.id c.name)) = [] := by
  rw [List.flatMap_eq_nil_iff]
  intro c _
  rw [List.filter_filter]
  have hnil : s.book_categories.filter
      (fun p => (c.id == p.2 && p.1 == bid) && !(p.1 == bid)) = [] := by
    rw [List.filter_eq_nil_iff]
    intro p _ hcond
    rw [Bool.and_eq_true, Bool.and_eq_true] at hcond
    obtain ⟨⟨_, h1⟩, h2⟩ := hcond
    rw [h1] at h2
    cases h2
  rw [hnil]
  rfl

theorem delete_book_fst (s : DBState) (bid : Int) :
    (delete_book s bid).1 =
      (("DELETE " ++ toString (s.books.countP (fun b => b.id == bid))).back != '0') := rfl

theorem delete_book_snd (s : DBState) (bid : Int) :
    (delete_book s bid).2 =
      { s with
        books := s.books.filter (fun b => !(b.id == bid)),
        book_categories := s.book_categories.filter (fun p => !(p.1 == bid)) } := rfl

theorem create_book_error_state (s : DBState) (t d : String) (p : Rat) (aid : Int)
    (pdd : String) (cids : List Int) (e : DbErr)
    (h : (create_book s t d p aid pdd cids).1 = .error e) :
    (create_book s t d p aid pdd cids).2 = s :=
  runTransaction_error s _ e h

theorem update_book_error_state (s : DBState) (bid : Int) (t d : Option String)
    (p : Option Rat) (a : Option Int) (pd : Option String)
    (cids : Option (List Int)) (e : DbErr)
    (h : (update_book s bid t d p a pd cids).1 = .error e) :
    (update_book s bid t d p a pd cids).2 = s :=
  runTransaction_error s _ e h

theorem sW_integrity : Integrity sW :=
  ⟨by decide, by decide, by decide, by decide, by decide, by decide, by decide⟩

/-! Claim theorems. -/

/-- C1: the claim fails on the code.  `Database.list_books` interpolates the
limit and offset values into the SQL text with an f-string, so two calls with
no filters present and the same parameter binding produce different query
texts for different limit values: the generated text depends on the supplied
limit value, which is not passed as a bound parameter (the parameter list of
both calls is empty and identical). -/
theorem list_books_query_text_depends_on_limit_value :
    (build_list_books_query none none none 50 0).1 ≠
      (build_list_books_query none none none 51 0).1 ∧
    (build_list_books_query none none none 50 0).2 =
      (build_list_books_query none none none 51 0).2 ∧
    (build_list_books_query none none none 50 0).2 = [] := by
  refine ⟨by decide, rfl, rfl⟩

/-- C4: the claim fails on the code.  At a store holding category 1 but no
book 7, `update_book` of book 7 with `category_ids = [1]` passes the handler
pre-validation, then inside the transaction inserts an association row whose
`book_id` does not resolve; the insert fails with a foreign-key violation that
escapes as a storage error, not as the explicit not-found signal (the store is
rolled back unchanged). -/
theorem update_book_missing_book_with_categories_raises_fk_error :
    main_update_book sW 7 ⟨none, none, none, none, none, some [1]⟩ =
      (.error (.db_error .fk_violation), sW) ∧
    (Except.error (ApiErr.db_error DbErr.fk_violation) :
      Except ApiErr (Option BookOut)) ≠ .error .not_found := by
  refine ⟨by decide, by decide⟩

/-- C9: the caller-visible result of the `list_books` handler does not depend
on the outcome of the deferred `log_action` write: the returned book list is
the same whether the background log insert succeeds or fails, and in either
case it is exactly what `Database.list_books` computed before the log task
ran. -/
theorem list_books_result_independent_of_log_outcome
    (s : DBState) (a c : Option Int) (q : Option String) (l o : Nat) (u : Option Int) :
    (main_list_books s a c q l o u true).1 = (main_list_books s a c q l o u false).1 ∧
    ∀ ok : Bool, (main_list_books s a c q l o u ok).1 = (list_books s a c q l o).1 := by
  exact ⟨rfl, fun ok => by cases ok <;> rfl⟩

/-- C10: `update_book` of an existing book with every field omitted is an
identity operation: the dynamic SET clause is empty so no UPDATE statement is
built or executed, the store (book rows and association rows alike) is
returned exactly unchanged, and the existing row is returned. -/
theorem update_book_all_fields_omitted_identity
    (s : DBState) (hI : Integrity s) (bid : Int) (b : BookRow)
    (hb : b ∈ s.books) (hbid : b.id = bid) :
    (build_update_set none none none none none).1 = [] ∧
    update_book s bid none none none none none none = (.ok (some b), s) := by
  refine ⟨rfl, ?_⟩
  rw [update_book_all_none, find?_books_eq s hI bid b hb hbid]

/-- Witness: the identity update evaluated on the sample store at book 1. -/
theorem update_book_all_fields_omitted_identity_witness :
    (build_update_set none none none none none).1 = [] ∧
    update_book sW 1 none none none none none none = (.ok (some bW1), sW) :=
  update_book_all_fields_omitted_identity sW sW_integrity 1 bW1 (by decide) rfl

/-- C3: whenever the `create_book` handler fails — a missing author id or a
missing category id rejected by pre-validation before any write, or any insert
failing inside the transaction of `Database.create_book` — the store it
returns is exactly the store it was given: no book row and no association row
persists. -/
theorem create_book_failure_leaves_store_unchanged
    (s : DBState) (bk : BookIn) (e : ApiErr)
    (h : (main_create_book s bk).1 = .error e) :
    (main_create_book s bk).2 = s := by
  unfold main_create_book at h ⊢
  by_cases h1 : (get_author_by_id s bk.author_id).isNone = true
  · rw [if_pos h1]
  · rw [if_neg h1] at h ⊢
    cases h2 : validate_category_ids s bk.category_ids with
    | some cid => rfl
    | none =>
        cases h3 : create_book s bk.title bk.description bk.price bk.author_id
            bk.published_date bk.category_ids with
        | mk res s' =>
            cases res with
            | ok row => rw [h2, h3] at h; simp at h
            | error e' =>
                have hfst : (create_book s bk.title bk.description bk.price bk.author_id
                    bk.published_date bk.category_ids).1 = .error e' := by rw [h3]
                have hsnd := create_book_error_state s bk.title bk.description bk.price
                  bk.author_id bk.published_date bk.category_ids e' hfst
                rw [h3] at hsnd
                exact hsnd

/-- Witness: creation with a missing author id 9, and creation hitting a
duplicate association pair inside the transaction, both leave the sample
store unchanged. -/
theorem create_book_failure_leaves_store_unchanged_witness :
    (main_create_book sW ⟨"t", "d", 5, 9, "2020-01-01", []⟩).1 =
      .error .invalid_author_id ∧
    (main_create_book sW ⟨"t", "d", 5, 9, "2020-01-01", []⟩).2 = sW ∧
    (main_create_book sW ⟨"t", "d", 5, 1, "2020-01-01", [1, 1]⟩).1 =
      .error (.db_error .pk_violation) ∧
    (main_create_book sW ⟨"t", "d", 5, 1, "2020-01-01", [1, 1]⟩).2 = sW :=
  ⟨by decide,
   create_book_failure_leaves_store_unchanged sW ⟨"t", "d", 5, 9, "2020-01-01", []⟩
     .invalid_author_id (by decide),
   by decide,
   create_book_failure_leaves_store_unchanged sW ⟨"t", "d", 5, 1, "2020-01-01", [1, 1]⟩
     (.db_error .pk_violation) (by decide)⟩

/-- C7: `delete_book` returns a boolean reporting whether a row was actually
removed: it reports true exactly when a book with the given id existed, a
delete of a nonexistent id evaluates to the not-found report false without
raising any error and leaves the store unchanged, and a second delete of the
same id always reports false again. -/
theorem delete_book_reports_removal_idempotently
    (s : DBState) (hI : Integrity s) (bid : Int) :
    ((delete_book s bid).1 = true ↔ ∃ b ∈ s.books, b.id = bid) ∧
    ((¬ ∃ b ∈ s.books, b.id = bid) → delete_book s bid = (false, s)) ∧
    (delete_book (delete_book s bid).2 bid).1 = false := by
  have hcount0 : (¬ ∃ b ∈ s.books, b.id = bid) →
      s.books.countP (fun b => b.id == bid) = 0 := by
    intro hex
    rw [List.countP_eq_zero]
    intro b hb hbeq
    exact hex ⟨b, hb, beq_iff_eq.mp hbeq⟩
  refine ⟨⟨?_, ?_⟩, ?_, ?_⟩
  · intro h1
    by_contra hex
    rw [delete_book_fst, hcount0 hex] at h1
    exact absurd h1 (by decide)
  · intro hex
    obtain ⟨b, hb, hbid⟩ := hex
    have hcount1 : s.books.countP (fun b => b.id == bid) = 1 := by
      rw [List.countP_eq_length_filter,
        filter_key_eq_singleton (fun y => y.id) s.books hI.books_nodup b hb bid hbid]
      rfl
    rw [delete_book_fst, hcount1]
    decide
  · intro hex
    have hbooks : s.books.filter (fun b => !(b.id == bid)) = s.books := by
      rw [List.filter_eq_self]
      intro b hb
      have : ¬ b.id = bid := fun he => hex ⟨b, hb, he⟩
      simp [this]
    have hbc : s.book_categories.filter (fun p => !(p.1 == bid)) = s.book_categories := by
      rw [List.filter_eq_self]
      intro p hp
      obtain ⟨b, hb, hbid⟩ := hI.bc_book_fk p hp
      have : ¬ p.1 = bid := fun he => hex ⟨b, hb, by rw [hbid, he]⟩
      simp [this]
    have hfst : (delete_book s bid).1 = false := by
      rw [delete_book_fst, hcount0 hex]
      decide
    have hsnd : (delete_book s bid).2 = s := by
      rw [delete_book_snd, hbooks, hbc]
    rw [Prod.ext_iff]
    exact ⟨hfst, hsnd⟩
  · have hcount : (delete_book s bid).2.books.countP (fun b => b.id == bid) = 0 := by
      rw [List.countP_eq_zero]
      intro b hb hbeq
      rw [delete_book_snd] at hb
      have := (List.mem_filter.mp hb).2
      rw [hbeq] at this
      cases this
    rw [delete_book_fst, hcount]
    decide

/-- Witness: on the sample store, deleting the absent book 9 reports false
and changes nothing, deleting book 1 reports true, and deleting book 1 a
second time reports false. -/
theorem delete_book_reports_removal_idempotently_witness :
    delete_book sW 9 = (false, sW) ∧
    (delete_book sW 1).1 = true ∧
    (delete_book (delete_book sW 1).2 1).1 = false :=
  ⟨(delete_book_reports_removal_idempotently sW sW_integrity 9).2.1 (by decide),
   (delete_book_reports_removal_idempotently sW sW_integrity 1).1.mpr
     ⟨bW1, by decide, rfl⟩,
   (delete_book_reports_removal_idempotently sW sW_integrity 1).2.2⟩

/-- C2: for an existing book, `update_book` with `category_ids` supplied as
the empty list deletes every association row of that book (and only those,
leaving the book rows untouched), while `update_book` with `category_ids`
omitted returns the store exactly as it was; on a book that has at least one
association the two calls are observably distinct through a subsequent
`get_book_by_id`. -/
theorem update_book_empty_vs_absent_category_ids
    (s : DBState) (hI : Integrity s) (bid : Int) (b : BookRow)
    (hb : b ∈ s.books) (hbid : b.id = bid)
    (hc : ∃ cp ∈ s.book_categories, cp.1 = bid) :
    update_book s bid none none none none none (some []) =
      (.ok (some b),
       { s with book_categories :=
         s.book_categories.filter (fun p => !(p.1 == bid)) }) ∧
    update_book s bid none none none none none none = (.ok (some b), s) ∧
    get_book_by_id (update_book s bid none none none none none (some [])).2 bid ≠
      get_book_by_id (update_book s bid none none none none none none).2 bid := by
  have hfind := find?_books_eq s hI bid b hb hbid
  refine ⟨by rw [update_book_clear_cats, hfind],
    by rw [update_book_all_none, hfind], ?_⟩
  have hI1 : Integrity
      { s with book_categories := s.book_categories.filter (fun p => !(p.1 == bid)) } :=
    { authors_nodup := hI.authors_nodup
      categories_nodup := hI.categories_nodup
      books_nodup := hI.books_nodup
      books_author_fk := hI.books_author_fk
      bc_nodup := hI.bc_nodup.filter _
      bc_book_fk := fun p hp => hI.bc_book_fk p (List.mem_filter.mp hp).1
      bc_category_fk := fun p hp => hI.bc_category_fk p (List.mem_filter.mp hp).1 }
  have e1 := get_book_by_id_eq _ hI1 bid b hb hbid
  have e2 := get_book_by_id_eq s hI bid b hb hbid
  intro heq
  rw [update_book_clear_cats, update_book_all_none] at heq
  dsimp only at heq
  rw [e1, e2] at heq
  injection heq with h1
  have h2 := congrArg BookOut.categories h1
  dsimp only at h2
  rw [book_cats_nil_after_clear s bid] at h2
  exact book_cats_ne_nil s hI bid hc h2.symm

/-- Witness: on the sample store, clearing the categories of book 1 with the
empty list and updating book 1 with the field omitted produce observably
different stores through a subsequent read. -/
theorem update_book_empty_vs_absent_category_ids_witness :
    get_book_by_id (update_book sW 1 none none none none none (some [])).2 1 ≠
      get_book_by_id (update_book sW 1 none none none none none none).2 1 :=
  (update_book_empty_vs_absent_category_ids sW sW_integrity 1 bW1 (by decide) rfl
    ⟨(1, 1), by decide, rfl⟩).2.2

/-- C6: `update_book` modifies exactly the core fields explicitly supplied:
on an existing book the returned row carries the supplied value for every
supplied field and the prior stored value for every omitted one, the stored
book rows change only at the targeted id and only by that same field-wise
rule, the association rows are untouched, and no input can clear a stored
field (each result field is either the old stored value or a supplied
value). -/
theorem update_book_updates_exactly_supplied_fields
    (s : DBState) (hI : Integrity s) (bid : Int) (b : BookRow)
    (hb : b ∈ s.books) (hbid : b.id = bid)
    (t d : Option String) (p : Option Rat) (a : Option Int) (pd : Option String)
    (hauth : ∀ av, a = some av → ∃ x ∈ s.authors, x.id = av) :
    (update_book s bid t d p a pd none).1 = .ok (some (apply_set t d p a pd b)) ∧
    (update_book s bid t d p a pd none).2.books =
      s.books.map (fun x => if x.id == bid then apply_set t d p a pd x else x) ∧
    (update_book s bid t d p a pd none).2.book_categories = s.book_categories ∧
    (t = none → (apply_set t d p a pd b).title = b.title) ∧
    (d = none → (apply_set t d p a pd b).description = b.description) ∧
    (p = none → (apply_set t d p a pd b).price = b.price) ∧
    (a = none → (apply_set t d p a pd b).author_id = b.author_id) ∧
    (pd = none → (apply_set t d p a pd b).published_date = b.published_date) ∧
    (∀ v, t = some v → (apply_set t d p a pd b).title = v) ∧
    (∀ v, d = some v → (apply_set t d p a pd b).description = v) ∧
    (∀ v, p = some v → (apply_set t d p a pd b).price = v) ∧
    (∀ v, a = some v → (apply_set t d p a pd b).author_id = v) ∧
    (∀ v, pd = some v → (apply_set t d p a pd b).published_date = v) := by
  have h := update_book_none_eq s hI bid b hb hbid t d p a pd hauth
  refine ⟨by rw [h], by rw [h], by rw [h], ?_, ?_, ?_, ?_, ?_, ?_, ?_, ?_, ?_, ?_⟩
  all_goals first
    | (rintro rfl; rfl)
    | (intro v hv; subst hv; rfl)

/-- Witness: updating book 1 of the sample store with only a new title and a
new author id rewrites exactly those two fields and leaves the associations
unchanged. -/
theorem update_book_updates_exactly_supplied_fields_witness :
    (update_book sW 1 (some "eta") none none (some 2) none none).1 =
      .ok (some ⟨1, "eta", "d1", 10, 2, "2020-01-01"⟩) ∧
    (update_book sW 1 (some "eta") none none (some 2) none none).2.book_categories =
      sW.book_categories :=
  ⟨(update_book_updates_exactly_supplied_fields sW sW_integrity 1 bW1 (by decide) rfl
      (some "eta") none none (some 2) none
      (fun av hav => ⟨⟨2, "bob", none⟩, by decide, by cases hav; rfl⟩)).1,
   (update_book_updates_exactly_supplied_fields sW sW_integrity 1 bW1 (by decide) rfl
      (some "eta") none none (some 2) none
      (fun av hav => ⟨⟨2, "bob", none⟩, by decide, by cases hav; rfl⟩)).2.2.1⟩

/-- C5: on a store satisfying referential integrity, the rows produced by the
`list_books` query are exactly the books satisfying the conjunction of all
active filter predicates, ordered by title ascending with limit and offset
applied after that ordering; in particular with an author filter every
returned row carries that author id, and the returned sequence is pairwise
ordered by title. -/
theorem list_books_filters_conjunction_ordered_paginated
    (s : DBState) (hI : Integrity s) (a c : Option Int) (q : Option String) (l o : Nat) :
    run_list_books_query s a c q l o = spec_list_books s a c q l o ∧
    (∀ A, a = some A → ∀ r ∈ run_list_books_query s a c q l o, r.author_id = A) ∧
    (run_list_books_query s a c q l o).Pairwise titleLe := by
  have heq := run_list_books_query_eq s hI a c q l o
  refine ⟨heq, ?_, ?_⟩
  · rintro A rfl r hr
    rw [heq] at hr
    unfold spec_list_books at hr
    have hr1 := List.take_subset _ _ hr
    have hr2 := List.drop_subset _ _ hr1
    rw [List.mem_insertionSort] at hr2
    obtain ⟨b, hbmem, rfl⟩ := List.mem_map.mp hr2
    have hpred := (List.mem_filter.mp hbmem).2
    simp only [list_filter_pred, Bool.and_eq_true] at hpred
    exact beq_iff_eq.mp hpred.1.1
  · rw [heq]
    unfold spec_list_books
    have hsorted := List.sorted_insertionSort titleLe
      ((s.books.filter (list_filter_pred s a c q)).map (enrich s))
    have hsub := (List.take_sublist l _).trans (List.drop_sublist o
      (((s.books.filter (list_filter_pred s a c q)).map (enrich s)).insertionSort titleLe))
    exact hsorted.sublist hsub

/-- Witness: on the sample store with the author-1 filter, the query rows
coincide with the spec-shaped description and are pairwise title-ordered. -/
theorem list_books_filters_conjunction_ordered_paginated_witness :
    run_list_books_query sW (some 1) none none 50 0 =
      spec_list_books sW (some 1) none none 50 0 ∧
    (run_list_books_query sW (some 1) none none 50 0).Pairwise titleLe :=
  ⟨(list_books_filters_conjunction_ordered_paginated sW sW_integrity
      (some 1) none none 50 0).1,
   (list_books_filters_conjunction_ordered_paginated sW sW_integrity
      (some 1) none none 50 0).2.2⟩

theorem run_cats_query_book_id (s : DBState) (ids : List Int) (cr : CatRow)
    (h : cr ∈ run_cats_query s ids) : ∃ p ∈ s.book_categories, cr.book_id = p.1 := by
  unfold run_cats_query at h
  have h1 := (List.mem_filter.mp h).1
  rw [List.mem_flatMap] at h1
  obtain ⟨p, hp, hmem⟩ := h1
  obtain ⟨cat, hcat, rfl⟩ := List.mem_map.mp hmem
  exact ⟨p, hp, rfl⟩

/-- C8: in the result assembly of `Database.list_books`, every returned book
carries exactly the category entries of the batched query rows for its own id,
in their row order; a returned book with no association rows gets the empty
categories list; and when the primary query returns zero rows the batched
category query is not issued at all. -/
theorem list_books_assembles_categories_batched
    (s : DBState) (a c : Option Int) (q : Option String) (l o : Nat) :
    (run_list_books_query s a c q l o = [] → (list_books s a c q l o).2 = false) ∧
    (∀ bo ∈ (list_books s a c q l o).1,
      bo.categories =
        ((run_cats_query s ((run_list_books_query s a c q l o).map (fun r => r.id))).filter
          (fun cr => cr.book_id == bo.id)).map (fun cr => CatLite.mk cr.id cr.name) ∧
      ((∀ p ∈ s.book_categories, p.1 ≠ bo.id) → bo.categories = [])) := by
  constructor
  · intro hrows
    simp only [list_books, hrows]
    simp
  · intro bo hbo
    simp only [list_books] at hbo
    split at hbo
    · obtain ⟨r, hr, rfl⟩ := List.mem_map.mp hbo
      constructor
      · show build_cat_dict _ r.id = _
        rw [build_cat_dict_eq]
      · intro hnone
        show build_cat_dict _ r.id = _
        rw [build_cat_dict_eq]
        have hfil : (run_cats_query s ((run_list_books_query s a c q l o).map
            (fun r => r.id))).filter (fun cr => cr.book_id == r.id) = [] := by
          rw [List.filter_eq_nil_iff]
          intro cr hcr hbeq
          obtain ⟨p, hp, hcrp⟩ := run_cats_query_book_id s _ cr hcr
          exact hnone p hp (by rw [← hcrp]; exact beq_iff_eq.mp hbeq)
        rw [hfil]
        rfl
    · cases hbo

/-- Witness: on the store with no books the primary query returns zero rows
and the category query is not issued. -/
theorem list_books_assembles_categories_batched_witness :
    (list_books sNoBooks none none none 50 0).2 = false :=
  (list_books_assembles_categories_batched sNoBooks none none none 50 0).1 (by decide)

end Bookstore
